import Mathlib

/-!
# Verification of the newsroom-polling poll actor

Shallow embedding of the `PollVoteCounter` Durable Object
(`packages/embed-worker/src/durable-objects/PollVoteCounter.ts`), the
CMS create-poll validation (`packages/shared/src/schemas.ts`,
`packages/cms-worker/src/routes/polls.ts`), and the voter-fingerprint
derivation (embed-worker fingerprint library), together with proofs of
the specification's claims about them.

Conventions of the embedding:
* SQLite tables become Lean lists of row structures, kept in rowid
  (insertion) order; the single-row `poll` table becomes `Option PollRow`
  (every insert into it is guarded by an emptiness check in the source).
* `Date.now()` and `crypto.randomUUID()` results are passed in as
  explicit parameters of each operation.
* JavaScript float percentages are modelled as exact rationals `Rat`;
  the integer counts are exact in both worlds.
-/

namespace NewsroomPolling

/-- Poll lifecycle status, mirroring the `status` column
(`'draft' | 'published' | 'closed'`). -/
inductive Status
  | draft
  | published
  | closed
deriving DecidableEq, Repr

/-- A row of the `poll` table (one per Durable Object). -/
structure PollRow where
  id : String
  question : String
  status : Status
  created_at : Nat
  updated_at : Nat
  published_at : Option Nat
  closed_at : Option Nat
  reset_count : Nat
deriving DecidableEq, Repr

/-- A row of the `answers` table. -/
structure AnswerRow where
  id : String
  answer_text : String
  display_order : Nat
deriving DecidableEq, Repr

/-- A row of the `votes` table. -/
structure VoteRow where
  id : String
  answer_id : String
  voter_fingerprint : String
  voted_at : Nat
deriving DecidableEq, Repr

/-- SQLite state of one `PollVoteCounter` Durable Object. The source
only ever inserts into `poll` after checking the table is empty, so the
table is modelled as at most one row. -/
structure DOState where
  poll : Option PollRow
  answers : List AnswerRow
  votes : List VoteRow
deriving DecidableEq, Repr

/-- A fresh Durable Object: all tables empty. -/
def initState : DOState := ⟨none, [], []⟩

deriving instance DecidableEq for Except

/-- The error responses the Durable Object handlers return. Comments
give the literal body/status of the source. The spec's error taxonomy
maps onto these as: `InvalidState` for a vote on a draft poll is
`votePollNotPublished`, `PollClosed` is `votePollClosed`, `InvalidAnswer`
is `voteInvalidAnswer`, `DuplicateVote` is `voteAlreadyVoted`. -/
inductive DOError
  | pollNotFound          -- 404 'Poll not found'
  | alreadyExists         -- 400 'Poll already exists in this DO'
  | notDraft              -- 400 'Can only update draft polls' / 'Poll is not in draft status'
  | notPublished          -- 400 'Poll is not published'
  | votePollNotPublished  -- 400 'Poll not published'   (vote on a draft poll)
  | votePollClosed        -- 400 'Poll is closed'
  | voteInvalidAnswer     -- 400 'Invalid answer'
  | voteAlreadyVoted      -- 409 'Already voted'
deriving DecidableEq, Repr

/-- One element of `handleGet`'s `answers` array (`VoteCount` in the
source): answer metadata plus derived count and percentage. -/
structure VoteCount where
  answer_id : String
  answer_text : String
  display_order : Nat
  votes : Nat
  percentage : Rat
deriving DecidableEq, Repr

/-- `handleGet`'s response shape (`PollWithAnswers` in the source). -/
structure PollWithAnswers where
  poll : PollRow
  answers : List VoteCount
  totalVotes : Nat
deriving DecidableEq, Repr

/-- One element of `getVoteCountsData`'s `answers` array. -/
structure AnswerCount where
  answerId : String
  votes : Nat
  percentage : Rat
deriving DecidableEq, Repr

/-- `getVoteCountsData`'s result shape (the vote-count projection
returned by `handleVote` and streamed over SSE). -/
structure VoteCountsData where
  totalVotes : Nat
  answers : List AnswerCount
deriving DecidableEq, Repr

/-- `COUNT(v.id) ... LEFT JOIN votes v ON v.answer_id = a.id GROUP BY a.id`
for one answer id: the number of vote rows referencing it. -/
def countVotesFor (votes : List VoteRow) (aid : String) : Nat :=
  (votes.filter (fun v => v.answer_id == aid)).length

/-- `ORDER BY a.display_order`: stable insertion of one answer row. -/
def insertByOrder (a : AnswerRow) : List AnswerRow → List AnswerRow
  | [] => [a]
  | b :: bs =>
    if a.display_order ≤ b.display_order then a :: b :: bs
    else b :: insertByOrder a bs

/-- `ORDER BY a.display_order`: stable sort of the `answers` table. -/
def sortByDisplayOrder (l : List AnswerRow) : List AnswerRow :=
  l.foldr insertByOrder []

/-- The grouped rows of the vote-count query: each answer (in display
order) with its vote count. -/
def answersWithCounts (s : DOState) : List (AnswerRow × Nat) :=
  (sortByDisplayOrder s.answers).map (fun a => (a, countVotesFor s.votes a.id))

/-- `handleGet`: the full poll projection (404 if the `poll` table is
empty); `totalVotes` is the reduce-sum of the per-answer counts and
`percentage` is `votes / totalVotes * 100` (0 when the total is 0). -/
def handleGet (s : DOState) : Except DOError PollWithAnswers :=
  match s.poll with
  | none => .error .pollNotFound
  | some p =>
    let awc := answersWithCounts s
    let totalVotes : Nat := (awc.map (fun x => x.2)).sum
    .ok { poll := p
        , answers := awc.map (fun x =>
            { answer_id := x.1.id
            , answer_text := x.1.answer_text
            , display_order := x.1.display_order
            , votes := x.2
            , percentage :=
                if totalVotes > 0 then ((x.2 : Rat) / (totalVotes : Rat)) * 100 else 0 })
        , totalVotes := totalVotes }

/-- `getVoteCountsData`: the reduced projection used by `handleVote`
responses and SSE frames. -/
def getVoteCountsData (s : DOState) : VoteCountsData :=
  let awc := answersWithCounts s
  let totalVotes : Nat := (awc.map (fun x => x.2)).sum
  { totalVotes := totalVotes
  , answers := awc.map (fun x =>
      { answerId := x.1.id
      , votes := x.2
      , percentage :=
          if totalVotes > 0 then ((x.2 : Rat) / (totalVotes : Rat)) * 100 else 0 }) }

/-- The body of the create/update answer-insert loop, from position `i`:
each `(text, freshId)` pair becomes a row with `display_order = i`. -/
def mkAnswersFrom (i : Nat) : List (String × String) → List AnswerRow
  | [] => []
  | (t, aid) :: rest =>
    { id := aid, answer_text := t, display_order := i } :: mkAnswersFrom (i + 1) rest

/-- The `answers` rows inserted by the create/update loops:
`for i in 0..: INSERT (randomUUID(), answers[i], i)`. The fresh UUIDs
are supplied as the list `ansIds`. -/
def mkAnswers (texts ansIds : List String) : List AnswerRow :=
  mkAnswersFrom 0 (texts.zip ansIds)

/-- `handleCreate`: refuses if a poll row already exists, otherwise
inserts the poll (status `'draft'`, `reset_count` defaulting to 0,
`published_at`/`closed_at` NULL) and the answer rows. -/
def handleCreate (s : DOState) (id question : String) (texts ansIds : List String)
    (now : Nat) : Except DOError Unit × DOState :=
  if s.poll.isSome then (.error .alreadyExists, s)
  else
    (.ok ()
    , { poll := some
          { id := id, question := question, status := .draft
          , created_at := now, updated_at := now
          , published_at := none, closed_at := none, reset_count := 0 }
      , answers := s.answers ++ mkAnswers texts ansIds
      , votes := s.votes })

/-- `handleUpdate`: draft-only; optionally rewrites the question,
optionally deletes all answer rows and inserts replacements, then
answers with `handleGet` of the new state. -/
def handleUpdate (s : DOState) (question : Option String)
    (answers : Option (List String)) (ansIds : List String) (now : Nat) :
    Except DOError PollWithAnswers × DOState :=
  match s.poll with
  | none => (.error .pollNotFound, s)
  | some p =>
    if p.status ≠ .draft then (.error .notDraft, s)
    else
      let s1 : DOState :=
        match question with
        | some q => { s with poll := some { p with question := q, updated_at := now } }
        | none => s
      let s2 : DOState :=
        match answers with
        | some texts =>
            { s1 with
              answers := mkAnswers texts ansIds,
              poll := s1.poll.map (fun p1 => { p1 with updated_at := now }) }
        | none => s1
      (handleGet s2, s2)

/-- `handlePublish`: draft-only; sets status `'published'` and
`published_at`, then answers with the updated projection. -/
def handlePublish (s : DOState) (now : Nat) :
    Except DOError PollWithAnswers × DOState :=
  match s.poll with
  | none => (.error .pollNotFound, s)
  | some p =>
    if p.status ≠ .draft then (.error .notDraft, s)
    else
      let p' : PollRow :=
        { p with status := .published, published_at := some now, updated_at := now }
      let s' : DOState := { s with poll := some p' }
      (handleGet s', s')

/-- `handleClose`: published-only; sets status `'closed'` and
`closed_at`, then answers with the updated projection. -/
def handleClose (s : DOState) (now : Nat) :
    Except DOError PollWithAnswers × DOState :=
  match s.poll with
  | none => (.error .pollNotFound, s)
  | some p =>
    if p.status ≠ .published then (.error .notPublished, s)
    else
      let p' : PollRow :=
        { p with status := .closed, closed_at := some now, updated_at := now }
      let s' : DOState := { s with poll := some p' }
      (handleGet s', s')

/-- `handleDelete`: 404 if no poll row exists, otherwise deletes the
contents of all three tables and reports `{success, deleted}`. -/
def handleDelete (s : DOState) : Except DOError Bool × DOState :=
  match s.poll with
  | none => (.error .pollNotFound, s)
  | some _ => (.ok true, initState)

/-- `handleReset`: 404 if no poll row exists, otherwise deletes all
vote rows and increments `reset_count`, then answers with the updated
projection. -/
def handleReset (s : DOState) (now : Nat) :
    Except DOError PollWithAnswers × DOState :=
  match s.poll with
  | none => (.error .pollNotFound, s)
  | some p =>
    let p' : PollRow := { p with reset_count := p.reset_count + 1, updated_at := now }
    let s' : DOState := { s with votes := [], poll := some p' }
    (handleGet s', s')

/-- `SELECT id FROM answers WHERE id = ?` is non-empty. -/
def answerExists (answers : List AnswerRow) (aid : String) : Bool :=
  answers.any (fun a => a.id == aid)

/-- `SELECT id FROM votes WHERE voter_fingerprint = ?` is non-empty. -/
def fingerprintExists (votes : List VoteRow) (fp : String) : Bool :=
  votes.any (fun v => v.voter_fingerprint == fp)

/-- `handleVote`: the checks in source order — poll exists, status not
`'draft'`, status not `'closed'`, the answer id exists, the fingerprint
has no prior vote — then inserts the vote row and answers with
`getVoteCounts` computed on the post-insert state. -/
def handleVote (s : DOState) (answerId voterFingerprint voteId : String)
    (now : Nat) : Except DOError VoteCountsData × DOState :=
  match s.poll with
  | none => (.error .pollNotFound, s)
  | some p =>
    if p.status = .draft then (.error .votePollNotPublished, s)
    else if p.status = .closed then (.error .votePollClosed, s)
    else if ¬ answerExists s.answers answerId then (.error .voteInvalidAnswer, s)
    else if fingerprintExists s.votes voterFingerprint then (.error .voteAlreadyVoted, s)
    else
      let v : VoteRow :=
        { id := voteId, answer_id := answerId
        , voter_fingerprint := voterFingerprint, voted_at := now }
      let s' : DOState := { s with votes := s.votes ++ [v] }
      (.ok (getVoteCountsData s'), s')

/-! ## Operations, traces and reachability

One constructor per state-mutating Durable Object endpoint; the
`Date.now()` timestamps and `crypto.randomUUID()` results that each
handler draws are carried as constructor arguments. -/

/-- A state-mutating operation on one poll actor. -/
inductive Op
  | create (id question : String) (texts ansIds : List String) (now : Nat)
  | update (question : Option String) (answers : Option (List String))
      (ansIds : List String) (now : Nat)
  | publish (now : Nat)
  | close (now : Nat)
  | delete
  | reset (now : Nat)
  | vote (answerId fp voteId : String) (now : Nat)
deriving DecidableEq, Repr

/-- The state component of each handler's effect. -/
def step (s : DOState) : Op → DOState
  | .create id q texts ansIds now => (handleCreate s id q texts ansIds now).2
  | .update q answers ansIds now => (handleUpdate s q answers ansIds now).2
  | .publish now => (handlePublish s now).2
  | .close now => (handleClose s now).2
  | .delete => (handleDelete s).2
  | .reset now => (handleReset s now).2
  | .vote aid fp vid now => (handleVote s aid fp vid now).2

/-- Environment well-formedness of an operation: the `crypto.randomUUID()`
values supplied for new answer rows are pairwise distinct (UUID
collisions are assumed away). -/
def OpWF : Op → Prop
  | .create _ _ _ ansIds _ => ansIds.Nodup
  | .update _ _ ansIds _ => ansIds.Nodup
  | _ => True

/-- The actor states reachable from a fresh Durable Object by
well-formed operations. -/
inductive Reachable : DOState → Prop
  | init : Reachable initState
  | step (s : DOState) (op : Op) : Reachable s → OpWF op → Reachable (step s op)

/-! ## Vote-call sequences (for the deduplication claim) -/

/-- The inputs of one `vote()` call. -/
structure VoteCall where
  answerId : String
  fp : String
  voteId : String
  now : Nat
deriving DecidableEq, Repr

/-- Run a sequence of `vote()` calls, threading the actor state. -/
def runVotes (s : DOState) : List VoteCall → DOState
  | [] => s
  | c :: cs => runVotes (handleVote s c.answerId c.fp c.voteId c.now).2 cs

/-- The fingerprints of the calls in a sequence whose vote was accepted
(i.e. whose `handleVote` returned the success projection), in call
order. -/
def acceptedFps (s : DOState) : List VoteCall → List String
  | [] => []
  | c :: cs =>
    let r := handleVote s c.answerId c.fp c.voteId c.now
    match r.1 with
    | .ok _ => c.fp :: acceptedFps r.2 cs
    | .error _ => acceptedFps r.2 cs

/-- The `voter_fingerprint` column of the `votes` table. -/
def votesFps (s : DOState) : List String :=
  s.votes.map (fun v => v.voter_fingerprint)

/-- The `id` column of the `answers` table. -/
def answerIds (s : DOState) : List String :=
  s.answers.map (fun a => a.id)

/-! ## The poll-index actor

A dedicated Durable Object instance (same class, fixed name
`'poll-index'`) holding only the `poll_index` table; rows are kept in
rowid (insertion) order. -/

/-- The `poll_index` table: `(poll_id, created_at)` rows in rowid order. -/
structure IndexState where
  poll_index : List (String × Nat)
deriving DecidableEq, Repr

/-- A fresh index actor. -/
def initIndex : IndexState := ⟨[]⟩

/-- `handleAddToIndex`: `INSERT OR IGNORE` keyed on `poll_id` with
`created_at = Date.now()`. -/
def handleAddToIndex (s : IndexState) (pollId : String) (now : Nat) : IndexState :=
  if s.poll_index.any (fun r => r.1 == pollId) then s
  else ⟨s.poll_index ++ [(pollId, now)]⟩

/-- `handleRemoveFromIndex`: `DELETE FROM poll_index WHERE poll_id = ?`. -/
def handleRemoveFromIndex (s : IndexState) (pollId : String) : IndexState :=
  ⟨s.poll_index.filter (fun r => !(r.1 == pollId))⟩

/-- `ORDER BY created_at DESC`: stable descending insertion. -/
def insertDescByCreated (x : String × Nat) : List (String × Nat) → List (String × Nat)
  | [] => [x]
  | y :: ys =>
    if y.2 ≤ x.2 then x :: y :: ys
    else y :: insertDescByCreated x ys

/-- `ORDER BY created_at DESC`: stable sort, newest first. -/
def sortByCreatedDesc (l : List (String × Nat)) : List (String × Nat) :=
  l.foldr insertDescByCreated []

/-- `handleGetIndex`:
`SELECT poll_id FROM poll_index ORDER BY created_at DESC`. -/
def handleGetIndex (s : IndexState) : List String :=
  (sortByCreatedDesc s.poll_index).map (fun r => r.1)

/-- An operation on the index actor. -/
inductive IdxOp
  | add (pollId : String) (now : Nat)
  | remove (pollId : String)
deriving DecidableEq, Repr

/-- Apply one index operation. -/
def idxStep (s : IndexState) : IdxOp → IndexState
  | .add pid now => handleAddToIndex s pid now
  | .remove pid => handleRemoveFromIndex s pid

/-- Run a sequence of index operations. -/
def idxRun (s : IndexState) (ops : List IdxOp) : IndexState :=
  ops.foldl idxStep s

/-- The `Date.now()` stamps of the `add` operations are strictly
increasing along the sequence and strictly above the bound `lb`. -/
def IdxTimesMono : Nat → List IdxOp → Prop
  | _, [] => True
  | lb, .add _ t :: rest => lb < t ∧ IdxTimesMono t rest
  | lb, .remove _ :: rest => IdxTimesMono lb rest

/-- The poll ids present after a sequence of index operations, in the
order in which they were (last) first-inserted: an `add` of an absent id
appends it, an `add` of a present id is ignored, a `remove` deletes it. -/
def presentIds (acc : List String) : List IdxOp → List String
  | [] => acc
  | .add pid _ :: rest =>
    if pid ∈ acc then presentIds acc rest else presentIds (acc ++ [pid]) rest
  | .remove pid :: rest => presentIds (acc.filter (fun x => !(x == pid))) rest

/-! ## CMS create-poll validation

`createPollSchema` (`packages/shared/src/schemas.ts`) as run by
`handleCreatePoll` (`packages/cms-worker/src/routes/polls.ts`) before
the Durable Object `create` call. `z.string().min/max` compare
`data.length`; `new Set(answers).size === answers.length` is the
pairwise-distinctness refinement. -/

/-- The `createPollSchema` checks: question 1–500 chars, 2–10 answers,
each answer 1–200 chars, answer texts pairwise distinct. -/
def createPollValid (question : String) (answers : List String) : Bool :=
  (1 ≤ question.length && question.length ≤ 500)
  && answers.all (fun a => 1 ≤ a.length && a.length ≤ 200)
  && (2 ≤ answers.length && answers.length ≤ 10)
  && (answers.dedup.length == answers.length)

/-- The error outcomes of the CMS create-poll route. -/
inductive CmsError
  | validationError  -- 400 VALIDATION_ERROR from the zod schema
  | internalError    -- the Durable Object create call failed
deriving DecidableEq, Repr

/-- `handleCreatePoll`: validate against `createPollSchema`, then call
the fresh poll's Durable Object `create` with a generated `pollId`. -/
def handleCreatePoll (s : DOState) (pollId question : String)
    (answers ansIds : List String) (now : Nat) : Except CmsError DOState :=
  if ¬ createPollValid question answers then .error .validationError
  else
    match handleCreate s pollId question answers ansIds now with
    | (.ok _, s') => .ok s'
    | (.error _, _) => .error .internalError

/-! ## Voter-fingerprint derivation

`generateFingerprint` (embed-worker fingerprint library, the two-argument
version called by `routes/vote.ts` with the client-supplied `clientId`):
SHA-256 over the UTF-8 bytes of `` `${ip}:${clientId}` `` where `ip` is
the `CF-Connecting-IP` header or `'unknown'`, hex-encoded byte by byte
with `toString(16).padStart(2, '0')`.

SHA-256 (FIPS 180-4) is `crypto.subtle.digest` — a platform primitive,
embedded here in full over `Nat` with explicit `% 2^32` wrapping. -/

/-- Truncated 32-bit sum. -/
def add32 (a b : Nat) : Nat := (a + b) % 4294967296

/-- 32-bit right rotation. -/
def rotr32 (n x : Nat) : Nat :=
  ((x >>> n) ||| (x <<< (32 - n))) % 4294967296

/-- 32-bit bitwise complement. -/
def not32 (x : Nat) : Nat := x ^^^ 4294967295

/-- SHA-256 `Ch(x,y,z)`. -/
def shaCh (x y z : Nat) : Nat := (x &&& y) ^^^ (not32 x &&& z)

/-- SHA-256 `Maj(x,y,z)`. -/
def shaMaj (x y z : Nat) : Nat := ((x &&& y) ^^^ (x &&& z)) ^^^ (y &&& z)

/-- SHA-256 `Σ₀`. -/
def bsig0 (x : Nat) : Nat := (rotr32 2 x ^^^ rotr32 13 x) ^^^ rotr32 22 x

/-- SHA-256 `Σ₁`. -/
def bsig1 (x : Nat) : Nat := (rotr32 6 x ^^^ rotr32 11 x) ^^^ rotr32 25 x

/-- SHA-256 `σ₀`. -/
def ssig0 (x : Nat) : Nat := (rotr32 7 x ^^^ rotr32 18 x) ^^^ (x >>> 3)

/-- SHA-256 `σ₁`. -/
def ssig1 (x : Nat) : Nat := (rotr32 17 x ^^^ rotr32 19 x) ^^^ (x >>> 10)

/-- The 64 SHA-256 round constants (FIPS 180-4 §4.2.2), in decimal. -/
def shaK : List Nat :=
  [ 1116352408, 1899447441, 3049323471, 3921009573
  , 961987163, 1508970993, 2453635748, 2870763221
  , 3624381080, 310598401, 607225278, 1426881987
  , 1925078388, 2162078206, 2614888103, 3248222580
  , 3835390401, 4022224774, 264347078, 604807628
  , 770255983, 1249150122, 1555081692, 1996064986
  , 2554220882, 2821834349, 2952996808, 3210313671
  , 3336571891, 3584528711, 113926993, 338241895
  , 666307205, 773529912, 1294757372, 1396182291
  , 1695183700, 1986661051, 2177026350, 2456956037
  , 2730485921, 2820302411, 3259730800, 3345764771
  , 3516065817, 3600352804, 4094571909, 275423344
  , 430227734, 506948616, 659060556, 883997877
  , 958139571, 1322822218, 1537002063, 1747873779
  , 1955562222, 2024104815, 2227730452, 2361852424
  , 2428436474, 2756734187, 3204031479, 3329325298 ]

/-- The eight SHA-256 working registers. -/
structure Regs where
  a : Nat
  b : Nat
  c : Nat
  d : Nat
  e : Nat
  f : Nat
  g : Nat
  h : Nat
deriving DecidableEq, Repr

/-- The SHA-256 initial hash value (FIPS 180-4 §5.3.3), in decimal. -/
def shaH0 : Regs :=
  ⟨1779033703, 3144134277, 1013904242, 2773480762,
   1359893119, 2600822924, 528734635, 1541459225⟩

/-- One round of the SHA-256 compression function. -/
def compressRound (r : Regs) (ki wi : Nat) : Regs :=
  let t1 := add32 r.h (add32 (bsig1 r.e) (add32 (shaCh r.e r.f r.g) (add32 ki wi)))
  let t2 := add32 (bsig0 r.a) (shaMaj r.a r.b r.c)
  ⟨add32 t1 t2, r.a, r.b, r.c, add32 r.d t1, r.e, r.f, r.g⟩

/-- Extend the 16-word message schedule by `fuel` further words. -/
def extendW : Nat → List Nat → List Nat
  | 0, w => w
  | fuel + 1, w =>
    let i := w.length
    let wi := add32 (add32 (ssig1 (w.getD (i - 2) 0)) (w.getD (i - 7) 0))
                    (add32 (ssig0 (w.getD (i - 15) 0)) (w.getD (i - 16) 0))
    extendW fuel (w ++ [wi])

/-- Compress one 64-byte block (given as its 16 message words). -/
def compressBlock (r0 : Regs) (w16 : List Nat) : Regs :=
  let w := extendW 48 w16
  let r := (shaK.zip w).foldl (fun r kw => compressRound r kw.1 kw.2) r0
  ⟨add32 r0.a r.a, add32 r0.b r.b, add32 r0.c r.c, add32 r0.d r.d,
   add32 r0.e r.e, add32 r0.f r.f, add32 r0.g r.g, add32 r0.h r.h⟩

/-- FIPS 180-4 §5.1.1 padding: append `0x80`, zero bytes to 56 mod 64,
then the 64-bit big-endian bit length. -/
def padMessage (msg : List Nat) : List Nat :=
  let bitLen := msg.length * 8
  let zeros := (120 - (msg.length + 1) % 64) % 64
  msg ++ [0x80] ++ List.replicate zeros 0 ++
    [ (bitLen >>> 56) % 256, (bitLen >>> 48) % 256, (bitLen >>> 40) % 256
    , (bitLen >>> 32) % 256, (bitLen >>> 24) % 256, (bitLen >>> 16) % 256
    , (bitLen >>> 8) % 256, bitLen % 256 ]

/-- Group bytes into big-endian 32-bit words. -/
def bytesToWords : List Nat → List Nat
  | b0 :: b1 :: b2 :: b3 :: rest =>
    (((b0 * 256 + b1) * 256 + b2) * 256 + b3) :: bytesToWords rest
  | _ => []

/-- Split a byte list into 64-byte blocks (fuel-driven; the fuel
`l.length + 1` always suffices since each step consumes 64 bytes). -/
def chunkBlocksAux : Nat → List Nat → List (List Nat)
  | 0, _ => []
  | _, [] => []
  | fuel + 1, l => l.take 64 :: chunkBlocksAux fuel (l.drop 64)

/-- Split a padded message into its 64-byte blocks. -/
def chunkBlocks (l : List Nat) : List (List Nat) :=
  chunkBlocksAux (l.length + 1) l

/-- The four big-endian bytes of a 32-bit word. -/
def wordBytes (w : Nat) : List Nat :=
  [(w >>> 24) % 256, (w >>> 16) % 256, (w >>> 8) % 256, w % 256]

/-- The 32 digest bytes of a final register state. -/
def regsToBytes (r : Regs) : List Nat :=
  wordBytes r.a ++ wordBytes r.b ++ wordBytes r.c ++ wordBytes r.d ++
  wordBytes r.e ++ wordBytes r.f ++ wordBytes r.g ++ wordBytes r.h

/-- SHA-256 of a byte string, as its 32 digest bytes. -/
def sha256 (msg : List Nat) : List Nat :=
  regsToBytes ((chunkBlocks (padMessage msg)).foldl
    (fun r block => compressBlock r (bytesToWords block)) shaH0)

/-- Standard UTF-8 encoding of one code point (`TextEncoder`). -/
def utf8EncodeChar (c : Char) : List Nat :=
  let n := c.toNat
  if n < 128 then [n]
  else if n < 2048 then [192 ||| (n >>> 6), 128 ||| (n &&& 63)]
  else if n < 65536 then
    [224 ||| (n >>> 12), 128 ||| ((n >>> 6) &&& 63), 128 ||| (n &&& 63)]
  else
    [240 ||| (n >>> 18), 128 ||| ((n >>> 12) &&& 63),
     128 ||| ((n >>> 6) &&& 63), 128 ||| (n &&& 63)]

/-- `new TextEncoder().encode(s)`. -/
def utf8Encode (s : String) : List Nat :=
  (s.toList.map utf8EncodeChar).flatten

/-- The lower-case hex digits, as produced by `toString(16)`. -/
def hexChars : List Char := "0123456789abcdef".toList

/-- One hex digit. -/
def hexDigitChar (n : Nat) : Char := hexChars.getD n '0'

/-- `b.toString(16).padStart(2, '0')` for a byte `b < 256`. -/
def byteToHex (b : Nat) : List Char :=
  [hexDigitChar (b / 16), hexDigitChar (b % 16)]

/-- `Array.from(bytes).map(toHex)` joined to one string. -/
def bytesToHexStr (bs : List Nat) : String :=
  String.mk (bs.map byteToHex).flatten

/-- `generateFingerprint(request, clientId)`: SHA-256 hex digest of
`` `${ip}:${clientId}` `` where `ip` is the `CF-Connecting-IP` header
value, defaulting to `'unknown'` when the header is absent. -/
def generateFingerprint (ipHeader : Option String) (clientId : String) : String :=
  let ip := ipHeader.getD "unknown"
  bytesToHexStr (sha256 (utf8Encode (ip ++ ":" ++ clientId)))

/-! ## Auxiliary definitions for the statements -/

/-- Position of a status along `draft → published → closed`. -/
def statusRank : Status → Nat
  | .draft => 0
  | .published => 1
  | .closed => 2

/-- The structural constraints exactly as the claim words them
(question 1–500 characters, each answer 1–200 characters, answer texts
pairwise distinct by exact text, 2–10 answers); compared against the
zod-schema translation `createPollValid`. -/
def ClaimConstraints (question : String) (answers : List String) : Prop :=
  1 ≤ question.length ∧ question.length ≤ 500
  ∧ (∀ a ∈ answers, 1 ≤ a.length ∧ a.length ≤ 200)
  ∧ answers.Nodup
  ∧ 2 ≤ answers.length ∧ answers.length ≤ 10

/-- The inductive invariant of one poll actor: vote fingerprints are
pairwise distinct, every vote references an existing answer, answer ids
are pairwise distinct, a draft poll has no votes, a pollless actor is
fully empty, and the lifecycle timestamps match the status. -/
structure Inv (s : DOState) : Prop where
  fps_nodup : (votesFps s).Nodup
  votes_ref : ∀ v ∈ s.votes, v.answer_id ∈ answerIds s
  ans_nodup : (answerIds s).Nodup
  draft_no_votes : ∀ p, s.poll = some p → p.status = .draft → s.votes = []
  no_poll_empty : s.poll = none → s = initState
  pub_iff : ∀ p, s.poll = some p →
    (p.published_at.isSome ↔ (p.status = .published ∨ p.status = .closed))
  closed_iff : ∀ p, s.poll = some p → (p.closed_at.isSome ↔ p.status = .closed)

/-! ### Concrete fixtures used by the witness theorems -/

/-- A concrete `create` operation. -/
def wCreateOp : Op := .create "p1" "Favourite?" ["Aye", "Nay"] ["a1", "a2"] 1

/-- The actor state after the `create`. -/
def wS1 : DOState := step initState wCreateOp

/-- The actor state after `create` then `publish`. -/
def wS2 : DOState := step wS1 (.publish 2)

/-- The actor state after `create`, `publish` and one accepted vote. -/
def wS3 : DOState := step wS2 (.vote "a1" "fp1" "v1" 3)

/-- The draft poll row of `wS1`. -/
def wPollDraft : PollRow :=
  { id := "p1", question := "Favourite?", status := .draft
  , created_at := 1, updated_at := 1
  , published_at := none, closed_at := none, reset_count := 0 }

/-- The published poll row of `wS2` and `wS3`. -/
def wPollPub : PollRow :=
  { wPollDraft with status := .published, published_at := some 2, updated_at := 2 }

/-- The projection `handleGet` returns on `wS2` (no votes yet). -/
def wProj2 : PollWithAnswers :=
  { poll := wPollPub
  , answers :=
      [ { answer_id := "a1", answer_text := "Aye", display_order := 0
        , votes := 0, percentage := 0 }
      , { answer_id := "a2", answer_text := "Nay", display_order := 1
        , votes := 0, percentage := 0 } ]
  , totalVotes := 0 }

/-! # Theorems -/

theorem hexDigitChar_mem (n : Nat) : hexDigitChar n ∈ hexChars := by
  rcases Nat.lt_or_ge n 16 with h | h
  · interval_cases n <;> decide
  · have hlen : hexChars.length ≤ n := by simpa [hexChars] using h
    have hd : hexDigitChar n = '0' := by
      simp [hexDigitChar, List.getD_eq_getElem?_getD, List.getElem?_eq_none hlen]
    rw [hd]; decide

theorem bytesToHexStr_mem_hex (bs : List Nat) :
    ∀ c ∈ (bytesToHexStr bs).data, c ∈ hexChars := by
  intro c hc
  have hc' : c ∈ (bs.map byteToHex).flatten := hc
  rcases List.mem_flatten.1 hc' with ⟨l, hl, hcl⟩
  rcases List.mem_map.1 hl with ⟨b, hb, rfl⟩
  simp only [byteToHex, List.mem_cons, List.not_mem_nil, or_false] at hcl
  rcases hcl with rfl | rfl <;> exact hexDigitChar_mem _

/-- C9: the voter fingerprint supplied to `vote()` is a deterministic
function of the requester's network origin (`CF-Connecting-IP`) and the
client-supplied stable token (`clientId`), producing a fixed-length
(64-character) hexadecimal digest, and the client token is an input the
derivation genuinely depends on (two requests from the same origin with
different tokens get different fingerprints). -/
theorem C9_fingerprint_deterministic_hex (ip1 ip2 : Option String) (tok1 tok2 : String) :
    (ip1 = ip2 → tok1 = tok2 →
      generateFingerprint ip1 tok1 = generateFingerprint ip2 tok2)
    ∧ (generateFingerprint ip1 tok1).length = 64
    ∧ (∀ c ∈ (generateFingerprint ip1 tok1).data, c ∈ hexChars)
    ∧ generateFingerprint (some "203.0.113.7") "client-a"
        ≠ generateFingerprint (some "203.0.113.7") "client-b" := by
  refine ⟨?_, rfl, bytesToHexStr_mem_hex _, by decide⟩
  rintro rfl rfl
  rfl

theorem C9_witness :
    generateFingerprint (some "198.51.100.9") "tok"
      = generateFingerprint (some "198.51.100.9") "tok"
    ∧ (generateFingerprint (some "198.51.100.9") "tok").length = 64 :=
  ⟨(C9_fingerprint_deterministic_hex (some "198.51.100.9") (some "198.51.100.9")
      "tok" "tok").1 rfl rfl,
   (C9_fingerprint_deterministic_hex (some "198.51.100.9") (some "198.51.100.9")
      "tok" "tok").2.1⟩

/-- C1: on an actor holding a poll, `vote()` checks its preconditions in
the fixed source order — draft status first (`InvalidState`, i.e. the
`'Poll not published'` response), then closed status (`PollClosed`),
then answer membership (`InvalidAnswer`), then fingerprint deduplication
(`DuplicateVote`) — and only when all four pass is the vote row inserted
and the updated vote-count projection returned. -/
theorem C1_vote_precondition_order (s : DOState) (p : PollRow)
    (answerId fp voteId : String) (now : Nat) (hp : s.poll = some p) :
    (p.status = .draft →
      handleVote s answerId fp voteId now = (.error .votePollNotPublished, s))
    ∧ (p.status ≠ .draft → p.status = .closed →
      handleVote s answerId fp voteId now = (.error .votePollClosed, s))
    ∧ (p.status ≠ .draft → p.status ≠ .closed →
      answerExists s.answers answerId = false →
      handleVote s answerId fp voteId now = (.error .voteInvalidAnswer, s))
    ∧ (p.status ≠ .draft → p.status ≠ .closed →
      answerExists s.answers answerId = true →
      fingerprintExists s.votes fp = true →
      handleVote s answerId fp voteId now = (.error .voteAlreadyVoted, s))
    ∧ (p.status ≠ .draft → p.status ≠ .closed →
      answerExists s.answers answerId = true →
      fingerprintExists s.votes fp = false →
      handleVote s answerId fp voteId now =
        (.ok (getVoteCountsData
          { s with votes := s.votes ++ [⟨voteId, answerId, fp, now⟩] }),
         { s with votes := s.votes ++ [⟨voteId, answerId, fp, now⟩] })) := by
  refine ⟨fun h1 => ?_, fun h1 h2 => ?_, fun h1 h2 h3 => ?_,
    fun h1 h2 h3 h4 => ?_, fun h1 h2 h3 h4 => ?_⟩ <;>
    simp [handleVote, hp, h1]
  · simp [h2]
  · simp [h2, h3]
  · simp [h2, h3, h4]
  · simp [h2, h3, h4]

theorem C1_witness :
    handleVote wS1 "a1" "f" "v" 5 = (.error .votePollNotPublished, wS1) :=
  (C1_vote_precondition_order wS1 wPollDraft "a1" "f" "v" 5 (by decide)).1 (by decide)

theorem fingerprintExists_false_not_mem {s : DOState} {fp : String}
    (hf : ¬ fingerprintExists s.votes fp) : fp ∉ votesFps s := by
  intro hmem
  apply hf
  rcases List.mem_map.1 hmem with ⟨v, hv, rfl⟩
  simp [fingerprintExists, List.any_eq_true]
  exact ⟨v, hv, rfl⟩

theorem runVotes_fps (calls : List VoteCall) :
    ∀ (s : DOState) (p : PollRow), s.poll = some p → p.status = .published →
    votesFps (runVotes s calls) = votesFps s ++ acceptedFps s calls
    ∧ ((votesFps s).Nodup → (votesFps (runVotes s calls)).Nodup) := by
  induction calls with
  | nil => intro s p hp hpub; simp [runVotes, acceptedFps]
  | cons c cs ih =>
    intro s p hp hpub
    by_cases ha : answerExists s.answers c.answerId
    · by_cases hf : fingerprintExists s.votes c.fp
      · have hv : handleVote s c.answerId c.fp c.voteId c.now
            = (.error .voteAlreadyVoted, s) := by
          simp [handleVote, hp, hpub, ha, hf]
        have h := ih s p hp hpub
        constructor
        · rw [runVotes, hv, acceptedFps]
          simpa [hv] using h.1
        · intro hnd
          rw [runVotes, hv]
          exact h.2 hnd
      · have hv : handleVote s c.answerId c.fp c.voteId c.now
            = (.ok (getVoteCountsData
                { s with votes := s.votes ++ [⟨c.voteId, c.answerId, c.fp, c.now⟩] }),
               { s with votes := s.votes ++ [⟨c.voteId, c.answerId, c.fp, c.now⟩] }) := by
          simp [handleVote, hp, hpub, ha, hf]
        have h := ih { s with votes := s.votes ++ [⟨c.voteId, c.answerId, c.fp, c.now⟩] }
          p hp hpub
        have hfps2 : votesFps
            { s with votes := s.votes ++ [⟨c.voteId, c.answerId, c.fp, c.now⟩] }
            = votesFps s ++ [c.fp] := by simp [votesFps]
        have hmem : c.fp ∉ votesFps s := fingerprintExists_false_not_mem hf
        constructor
        · rw [runVotes, hv, acceptedFps]
          simp only [hv]
          rw [h.1, hfps2, List.append_assoc]
          rfl
        · intro hnd
          rw [runVotes, hv]
          apply h.2
          rw [hfps2]
          simp [List.nodup_append, hnd, hmem]
    · have hv : handleVote s c.answerId c.fp c.voteId c.now
          = (.error .voteInvalidAnswer, s) := by
        simp [handleVote, hp, hpub, ha]
      have h := ih s p hp hpub
      constructor
      · rw [runVotes, hv, acceptedFps]
        simpa [hv] using h.1
      · intro hnd
        rw [runVotes, hv]
        exact h.2 hnd

/-- C2: against a published poll, for any sequence of `vote()` calls —
any mix of repeated and distinct fingerprints, in any order — the
number of accepted votes (rows of the `votes` table) equals the number
of distinct fingerprints whose vote was accepted, and within one reset
epoch (here: starting from an empty vote table) at most one accepted
vote exists per distinct fingerprint. -/
theorem C2_dedup_invariant (s : DOState) (p : PollRow) (calls : List VoteCall)
    (hp : s.poll = some p) (hpub : p.status = .published) (hv : s.votes = []) :
    (runVotes s calls).votes.length = (acceptedFps s calls).dedup.length
    ∧ (votesFps (runVotes s calls)).Nodup := by
  have h := runVotes_fps calls s p hp hpub
  have hfps0 : votesFps s = [] := by simp [votesFps, hv]
  have h1 : votesFps (runVotes s calls) = acceptedFps s calls := by
    rw [h.1, hfps0, List.nil_append]
  have hnd : (votesFps (runVotes s calls)).Nodup := h.2 (by simp [hfps0])
  refine ⟨?_, hnd⟩
  have hnd' : (acceptedFps s calls).Nodup := h1 ▸ hnd
  have hlen : (runVotes s calls).votes.length
      = (votesFps (runVotes s calls)).length := by simp [votesFps]
  rw [hlen, h1, List.Nodup.dedup hnd']

theorem C2_witness :
    (runVotes wS2 [⟨"a1", "f1", "v1", 3⟩, ⟨"a1", "f1", "v2", 4⟩,
        ⟨"a2", "f2", "v3", 5⟩]).votes.length
      = (acceptedFps wS2 [⟨"a1", "f1", "v1", 3⟩, ⟨"a1", "f1", "v2", 4⟩,
        ⟨"a2", "f2", "v3", 5⟩]).dedup.length
    ∧ (votesFps (runVotes wS2 [⟨"a1", "f1", "v1", 3⟩, ⟨"a1", "f1", "v2", 4⟩,
        ⟨"a2", "f2", "v3", 5⟩])).Nodup :=
  C2_dedup_invariant wS2 wPollPub
    [⟨"a1", "f1", "v1", 3⟩, ⟨"a1", "f1", "v2", 4⟩, ⟨"a2", "f2", "v3", 5⟩]
    (by decide) (by decide) (by decide)

/-! ### The inductive invariant -/

theorem map_snd_zip_sublist {α β : Type} : ∀ (as : List α) (bs : List β),
    ((as.zip bs).map Prod.snd).Sublist bs
  | [], _ => by simp
  | _ :: _, [] => by simp
  | a :: as, b :: bs => by
    simpa using (map_snd_zip_sublist as bs).cons₂ b

theorem map_fst_zip_of_le {α β : Type} : ∀ (as : List α) (bs : List β),
    as.length ≤ bs.length → (as.zip bs).map Prod.fst = as
  | [], _, _ => by simp
  | a :: as, [], h => by simp at h
  | a :: as, b :: bs, h => by
    simpa using map_fst_zip_of_le as bs (Nat.le_of_succ_le_succ h)

theorem mkAnswersFrom_ids : ∀ (i : Nat) (l : List (String × String)),
    (mkAnswersFrom i l).map (fun a => a.id) = l.map Prod.snd
  | _, [] => rfl
  | i, (t, aid) :: rest => by
    simpa [mkAnswersFrom] using mkAnswersFrom_ids (i + 1) rest

theorem mkAnswersFrom_texts : ∀ (i : Nat) (l : List (String × String)),
    (mkAnswersFrom i l).map (fun a => a.answer_text) = l.map Prod.fst
  | _, [] => rfl
  | i, (t, aid) :: rest => by
    simpa [mkAnswersFrom] using mkAnswersFrom_texts (i + 1) rest

theorem mkAnswers_ids_nodup {texts ansIds : List String} (h : ansIds.Nodup) :
    ((mkAnswers texts ansIds).map (fun a => a.id)).Nodup := by
  rw [mkAnswers, mkAnswersFrom_ids]
  exact h.sublist (map_snd_zip_sublist texts ansIds)

theorem mkAnswers_texts {texts ansIds : List String}
    (h : texts.length ≤ ansIds.length) :
    (mkAnswers texts ansIds).map (fun a => a.answer_text) = texts := by
  rw [mkAnswers, mkAnswersFrom_texts]
  exact map_fst_zip_of_le texts ansIds h

theorem answerExists_mem {s : DOState} {aid : String}
    (h : answerExists s.answers aid) : aid ∈ answerIds s := by
  rcases List.any_eq_true.1 h with ⟨a, ha, he⟩
  have he' : a.id = aid := by simpa using he
  exact he' ▸ List.mem_map_of_mem (fun a => a.id) ha

theorem draft_published_at_none {s : DOState} {p : PollRow} (hI : Inv s)
    (hp : s.poll = some p) (hd : p.status = .draft) : p.published_at = none := by
  have h := hI.pub_iff p hp
  rw [hd] at h
  cases hpa : p.published_at with
  | none => rfl
  | some x =>
    rcases h.1 (by simp [hpa]) with h' | h' <;> exact absurd h' (by decide)

theorem nonclosed_closed_at_none {s : DOState} {p : PollRow} (hI : Inv s)
    (hp : s.poll = some p) (hd : p.status ≠ .closed) : p.closed_at = none := by
  have h := hI.closed_iff p hp
  cases hpa : p.closed_at with
  | none => rfl
  | some x => exact absurd (h.1 (by simp [hpa])) hd

theorem inv_init : Inv initState := by
  constructor <;> simp [initState, votesFps, answerIds]

theorem inv_step (s : DOState) (op : Op) (hI : Inv s) (hwf : OpWF op) :
    Inv (step s op) := by
  cases op with
  | create id q texts ansIds now =>
    cases hp : s.poll with
    | some p => simpa [step, handleCreate, hp] using hI
    | none =>
      have hs : s = initState := hI.no_poll_empty hp
      subst hs
      refine ⟨?_, ?_, ?_, ?_, ?_, ?_, ?_⟩ <;>
        simp [step, handleCreate, initState, votesFps, answerIds]
      exact mkAnswers_ids_nodup hwf
  | update q answers ansIds now =>
    cases hp : s.poll with
    | none => simpa [step, handleUpdate, hp] using hI
    | some p =>
      by_cases hd : p.status = .draft
      · have hv : s.votes = [] := hI.draft_no_votes p hp hd
        have hpa := draft_published_at_none hI hp hd
        have hca := nonclosed_closed_at_none hI hp (by simp [hd])
        cases q with
        | none =>
          cases answers with
          | none => simpa [step, handleUpdate, hp, hd] using hI
          | some texts =>
            refine ⟨?_, ?_, ?_, ?_, ?_, ?_, ?_⟩ <;>
              simp [step, handleUpdate, hp, hd, votesFps, answerIds, hv, hpa, hca]
            exact mkAnswers_ids_nodup hwf
        | some q' =>
          cases answers with
          | none =>
            refine ⟨?_, ?_, ?_, ?_, ?_, ?_, ?_⟩ <;>
              simp [step, handleUpdate, hp, hd, votesFps, answerIds, hv, hpa, hca]
            exact hI.ans_nodup
          | some texts =>
            refine ⟨?_, ?_, ?_, ?_, ?_, ?_, ?_⟩ <;>
              simp [step, handleUpdate, hp, hd, votesFps, answerIds, hv, hpa, hca]
            exact mkAnswers_ids_nodup hwf
      · simpa [step, handleUpdate, hp, hd] using hI
  | publish now =>
    cases hp : s.poll with
    | none => simpa [step, handlePublish, hp] using hI
    | some p =>
      by_cases hd : p.status = .draft
      · have hv : s.votes = [] := hI.draft_no_votes p hp hd
        have hca := nonclosed_closed_at_none hI hp (by simp [hd])
        refine ⟨?_, ?_, ?_, ?_, ?_, ?_, ?_⟩ <;>
          simp [step, handlePublish, hp, hd, votesFps, answerIds, hv, hca]
        exact hI.ans_nodup
      · simpa [step, handlePublish, hp, hd] using hI
  | close now =>
    cases hp : s.poll with
    | none => simpa [step, handleClose, hp] using hI
    | some p =>
      by_cases hd : p.status = .published
      · have hpub : p.published_at.isSome := (hI.pub_iff p hp).2 (Or.inl hd)
        refine ⟨?_, ?_, ?_, ?_, ?_, ?_, ?_⟩ <;>
          simp [step, handleClose, hp, hd, votesFps, answerIds, hpub]
        · exact hI.fps_nodup
        · intro v hv
          simpa [answerIds] using hI.votes_ref v hv
        · exact hI.ans_nodup
      · simpa [step, handleClose, hp, hd] using hI
  | delete =>
    cases hp : s.poll with
    | none => simpa [step, handleDelete, hp] using hI
    | some p => simpa [step, handleDelete, hp] using inv_init
  | reset now =>
    cases hp : s.poll with
    | none => simpa [step, handleReset, hp] using hI
    | some p =>
      refine ⟨?_, ?_, ?_, ?_, ?_, ?_, ?_⟩ <;>
        simp [step, handleReset, hp, votesFps, answerIds]
      · exact hI.ans_nodup
      · simpa using hI.pub_iff p hp
      · simpa using hI.closed_iff p hp
  | vote aid fp vid now =>
    cases hp : s.poll with
    | none => simpa [step, handleVote, hp] using hI
    | some p =>
      by_cases h1 : p.status = .draft
      · simpa [step, handleVote, hp, h1] using hI
      by_cases h2 : p.status = .closed
      · simpa [step, handleVote, hp, h1, h2] using hI
      by_cases ha : answerExists s.answers aid
      · by_cases hf : fingerprintExists s.votes fp
        · simpa [step, handleVote, hp, h1, h2, ha, hf] using hI
        · have hmem : fp ∉ votesFps s := fingerprintExists_false_not_mem hf
          have haid : aid ∈ answerIds s := answerExists_mem ha
          refine ⟨?_, ?_, ?_, ?_, ?_, ?_, ?_⟩ <;>
            simp [step, handleVote, hp, h1, h2, ha, hf, votesFps, answerIds]
          · apply List.Nodup.append
            · simpa [votesFps] using hI.fps_nodup
            · simp
            · intro x hx hx'
              simp at hx'
              subst hx'
              exact hmem (by simpa [votesFps] using hx)
          · intro v hv
            rcases hv with hv | rfl
            · simpa [answerIds] using hI.votes_ref v hv
            · simpa [answerIds] using haid
          · exact hI.ans_nodup
          · simpa [h2] using hI.pub_iff p hp
          · exact nonclosed_closed_at_none hI hp h2
      · simpa [step, handleVote, hp, h1, h2, ha] using hI

theorem reachable_inv {s : DOState} (hs : Reachable s) : Inv s := by
  induction hs with
  | init => exact inv_init
  | step s op hr hwf ih => exact inv_step s op ih hwf

theorem wS1_reachable : Reachable wS1 :=
  Reachable.step initState wCreateOp Reachable.init
    (show (["a1", "a2"] : List String).Nodup by decide)

theorem wS2_reachable : Reachable wS2 :=
  Reachable.step wS1 (.publish 2) wS1_reachable trivial

theorem wS3_reachable : Reachable wS3 :=
  Reachable.step wS2 (.vote "a1" "fp1" "v1" 3) wS2_reachable trivial

/-- C10: in every reachable actor state whose poll is in draft status
the vote table is empty, and (hence) in every reachable state no vote
row references an answer id outside the current answer set — so
`update()`'s destructive answer replacement, which is only legal in
draft, can never orphan an existing vote's `answer_id`. -/
theorem C10_draft_votes_empty (s : DOState) (hs : Reachable s) :
    (∀ p, s.poll = some p → p.status = .draft → s.votes = [])
    ∧ (∀ v ∈ s.votes, v.answer_id ∈ answerIds s) :=
  ⟨(reachable_inv hs).draft_no_votes, (reachable_inv hs).votes_ref⟩

theorem C10_witness : wS1.votes = [] :=
  (C10_draft_votes_empty wS1 wS1_reachable).1 wPollDraft (by decide) (by decide)

theorem vote_poll_unchanged (s : DOState) (aid fp vid : String) (now : Nat) :
    ((handleVote s aid fp vid now).2).poll = s.poll := by
  cases hp : s.poll with
  | none => simp [handleVote, hp]
  | some p =>
    by_cases h1 : p.status = .draft
    · simp [handleVote, hp, h1]
    by_cases h2 : p.status = .closed
    · simp [handleVote, hp, h1, h2]
    by_cases ha : answerExists s.answers aid
    · by_cases hf : fingerprintExists s.votes fp
      · simp [handleVote, hp, h1, h2, ha, hf]
      · simp [handleVote, hp, h1, h2, ha, hf]
    · simp [handleVote, hp, h1, h2, ha]

/-- C4: the poll lifecycle only moves forward along
`draft → published → closed`: `publish()` fails with `InvalidState`
unless the status is draft, `close()` fails with `InvalidState` unless
the status is published, no operation lowers the status rank while a
poll is present, and in every reachable state `published_at` is set iff
the status is published or closed and `closed_at` is set iff the status
is closed. -/
theorem C4_lifecycle_monotone (s : DOState) (hs : Reachable s) :
    (∀ p now, s.poll = some p → p.status ≠ .draft →
      handlePublish s now = (.error .notDraft, s))
    ∧ (∀ p now, s.poll = some p → p.status ≠ .published →
      handleClose s now = (.error .notPublished, s))
    ∧ (∀ op p p', s.poll = some p → (step s op).poll = some p' →
      statusRank p.status ≤ statusRank p'.status)
    ∧ (∀ p, s.poll = some p →
      ((p.published_at.isSome ↔ (p.status = .published ∨ p.status = .closed))
       ∧ (p.closed_at.isSome ↔ p.status = .closed))) := by
  refine ⟨?_, ?_, ?_, fun p hp =>
    ⟨(reachable_inv hs).pub_iff p hp, (reachable_inv hs).closed_iff p hp⟩⟩
  · intro p now hp hd
    simp [handlePublish, hp, hd]
  · intro p now hp hd
    simp [handleClose, hp, hd]
  · intro op p p' hp hp'
    cases op with
    | create id q texts ansIds now =>
      have hu : step s (.create id q texts ansIds now) = s := by
        simp [step, handleCreate, hp]
      rw [hu, hp] at hp'
      injection hp' with h
      subst h
      exact Nat.le_refl _
    | update q answers ansIds now =>
      by_cases hd : p.status = .draft
      · cases q with
        | none =>
          cases answers with
          | none =>
            simp [step, handleUpdate, hp, hd] at hp'
            subst hp'
            exact Nat.le_refl _
          | some texts =>
            simp [step, handleUpdate, hp, hd] at hp'
            subst hp'
            simp [hd, statusRank]
        | some q' =>
          cases answers with
          | none =>
            simp [step, handleUpdate, hp, hd] at hp'
            subst hp'
            simp [hd, statusRank]
          | some texts =>
            simp [step, handleUpdate, hp, hd] at hp'
            subst hp'
            simp [hd, statusRank]
      · simp [step, handleUpdate, hp, hd] at hp'
        subst hp'
        exact Nat.le_refl _
    | publish now =>
      by_cases hd : p.status = .draft
      · simp [step, handlePublish, hp, hd] at hp'
        subst hp'
        simp [hd, statusRank]
      · simp [step, handlePublish, hp, hd] at hp'
        subst hp'
        exact Nat.le_refl _
    | close now =>
      by_cases hd : p.status = .published
      · simp [step, handleClose, hp, hd] at hp'
        subst hp'
        simp [hd, statusRank]
      · simp [step, handleClose, hp, hd] at hp'
        subst hp'
        exact Nat.le_refl _
    | delete =>
      have hu : (step s .delete).poll = none := by
        simp [step, handleDelete, hp, initState]
      rw [hu] at hp'
      exact absurd hp' (by simp)
    | reset now =>
      simp [step, handleReset, hp] at hp'
      subst hp'
      exact Nat.le_refl _
    | vote aid fp vid now =>
      have hu := vote_poll_unchanged s aid fp vid now
      rw [step] at hp'
      rw [hu, hp] at hp'
      injection hp' with h
      subst h
      exact Nat.le_refl _

theorem C4_witness :
    wPollPub.published_at.isSome
      ↔ (wPollPub.status = .published ∨ wPollPub.status = .closed) :=
  ((C4_lifecycle_monotone wS2 wS2_reachable).2.2.2 wPollPub (by decide)).1

/-! ### Vote counting (for the count-consistency claim) -/

theorem insertByOrder_perm (a : AnswerRow) (l : List AnswerRow) :
    (insertByOrder a l).Perm (a :: l) := by
  induction l with
  | nil => simp [insertByOrder]
  | cons b bs ih =>
    rw [insertByOrder]
    split
    · exact List.Perm.refl _
    · exact (ih.cons b).trans (List.Perm.swap a b bs)

theorem sortByDisplayOrder_perm (l : List AnswerRow) :
    (sortByDisplayOrder l).Perm l := by
  induction l with
  | nil => simp [sortByDisplayOrder]
  | cons a as ih =>
    exact (insertByOrder_perm a (sortByDisplayOrder as)).trans (ih.cons a)

theorem countVotesFor_cons (v : VoteRow) (vs : List VoteRow) (aid : String) :
    countVotesFor (v :: vs) aid
      = (if v.answer_id = aid then 1 else 0) + countVotesFor vs aid := by
  by_cases h : v.answer_id = aid <;> simp [countVotesFor, h, Nat.add_comm]

theorem sum_map_add {α : Type} (l : List α) (f g : α → Nat) :
    (l.map (fun a => f a + g a)).sum = (l.map f).sum + (l.map g).sum := by
  induction l with
  | nil => simp
  | cons a as ih =>
    simp [ih]
    omega

theorem sum_indicator_not_mem (x : String) (ids : List String) (h : x ∉ ids) :
    (ids.map (fun i => if x = i then 1 else 0)).sum = 0 := by
  induction ids with
  | nil => simp
  | cons i is ih =>
    simp at h
    simp [h.1, ih h.2]

theorem sum_indicator_mem (x : String) (ids : List String) (hnd : ids.Nodup)
    (hm : x ∈ ids) : (ids.map (fun i => if x = i then 1 else 0)).sum = 1 := by
  induction ids with
  | nil => simp at hm
  | cons i is ih =>
    rcases List.mem_cons.1 hm with rfl | hm'
    · have hni : x ∉ is := (List.nodup_cons.1 hnd).1
      simp [sum_indicator_not_mem x is hni]
    · have hne : x ≠ i := by
        rintro rfl
        exact (List.nodup_cons.1 hnd).1 hm'
      simp [hne, ih (List.nodup_cons.1 hnd).2 hm']

theorem sum_counts (votes : List VoteRow) (ans : List AnswerRow)
    (hnd : (ans.map (fun a => a.id)).Nodup)
    (href : ∀ v ∈ votes, v.answer_id ∈ ans.map (fun a => a.id)) :
    (ans.map (fun a => countVotesFor votes a.id)).sum = votes.length := by
  induction votes with
  | nil => simp [countVotesFor]
  | cons v vs ih =>
    have hv := href v (List.mem_cons_self v vs)
    have href' : ∀ w ∈ vs, w.answer_id ∈ ans.map (fun a => a.id) :=
      fun w hw => href w (List.mem_cons_of_mem v hw)
    simp only [countVotesFor_cons]
    rw [sum_map_add]
    have hind : (ans.map (fun a => if v.answer_id = a.id then 1 else 0)).sum = 1 := by
      have hmm : ans.map (fun a => if v.answer_id = a.id then 1 else 0)
          = (ans.map (fun a => a.id)).map (fun i => if v.answer_id = i then 1 else 0) := by
        rw [List.map_map]
        rfl
      rw [hmm]
      exact sum_indicator_mem _ _ hnd hv
    rw [hind, ih href']
    simp [Nat.add_comm]

/-- C3: for every reachable state in which `get()` answers, the returned
projection has `totalVotes` equal to the sum of the per-answer vote
counts, which equals the number of rows of the `votes` table, and each
answer's `percentage` equals `votes / totalVotes * 100` (exactly 0 when
`totalVotes` is 0). -/
theorem C3_count_consistency (s : DOState) (hs : Reachable s)
    (proj : PollWithAnswers) (hproj : handleGet s = .ok proj) :
    proj.totalVotes = (proj.answers.map (fun a => a.votes)).sum
    ∧ proj.totalVotes = s.votes.length
    ∧ ∀ a ∈ proj.answers,
        a.percentage = if proj.totalVotes > 0
          then ((a.votes : Rat) / (proj.totalVotes : Rat)) * 100 else 0 := by
  have hI := reachable_inv hs
  cases hp : s.poll with
  | none => simp [handleGet, hp] at hproj
  | some p =>
    simp only [handleGet, hp] at hproj
    injection hproj with hproj
    subst hproj
    refine ⟨?_, ?_, ?_⟩
    · simp [List.map_map]
      rfl
    · show ((answersWithCounts s).map (fun x => x.2)).sum = s.votes.length
      rw [answersWithCounts, List.map_map]
      have hcomp : ((fun x : AnswerRow × Nat => x.2)
            ∘ (fun a => (a, countVotesFor s.votes a.id)))
          = fun a => countVotesFor s.votes a.id := rfl
      rw [hcomp]
      have hperm := (sortByDisplayOrder_perm s.answers).map
        (fun a => countVotesFor s.votes a.id)
      rw [hperm.sum_eq]
      exact sum_counts s.votes s.answers hI.ans_nodup hI.votes_ref
    · intro a ha
      rcases List.mem_map.1 ha with ⟨x, hx, rfl⟩
      rfl

theorem C3_witness : wProj2.totalVotes = wS2.votes.length :=
  (C3_count_consistency wS2 wS2_reachable wProj2 (by rfl)).2.1

theorem handleGet_totalVotes_zero (s : DOState) (hv : s.votes = [])
    (proj : PollWithAnswers) (h : handleGet s = .ok proj) :
    proj.totalVotes = 0 := by
  cases hp : s.poll with
  | none => simp [handleGet, hp] at h
  | some p =>
    simp only [handleGet, hp] at h
    injection h with h
    subst h
    show ((answersWithCounts s).map fun x => x.2).sum = 0
    apply List.sum_eq_zero
    intro x hx
    rcases List.mem_map.1 hx with ⟨y, hy, rfl⟩
    rcases List.mem_map.1 hy with ⟨a, ha, rfl⟩
    simp [countVotesFor, hv]

/-- C5: on an actor holding a poll, `reset()` deletes all vote rows (so
a subsequent `get()` reports `totalVotes = 0`), increments `reset_count`
by exactly one, leaves the status and the answers unchanged, and a
fingerprint whose vote had just failed with `DuplicateVote` can
afterwards vote successfully against the unchanged-status poll. -/
theorem C5_reset_semantics (s : DOState) (p : PollRow) (now now2 : Nat)
    (aid fp vid : String) (hp : s.poll = some p) :
    ((handleReset s now).2).votes = []
    ∧ ((handleReset s now).2).poll
        = some { p with reset_count := p.reset_count + 1, updated_at := now }
    ∧ (∀ p', ((handleReset s now).2).poll = some p' → p'.status = p.status)
    ∧ ((handleReset s now).2).answers = s.answers
    ∧ (∀ proj, handleGet (handleReset s now).2 = .ok proj → proj.totalVotes = 0)
    ∧ ((handleVote s aid fp vid now2).1 = .error .voteAlreadyVoted →
        handleVote (handleReset s now).2 aid fp vid now2
          = (.ok (getVoteCountsData
              { (handleReset s now).2 with votes := [⟨vid, aid, fp, now2⟩] }),
             { (handleReset s now).2 with votes := [⟨vid, aid, fp, now2⟩] })) := by
  refine ⟨by simp [handleReset, hp], by simp [handleReset, hp], ?_, by simp [handleReset, hp],
    ?_, ?_⟩
  · intro p' hp'
    simp [handleReset, hp] at hp'
    subst hp'
    rfl
  · intro proj hproj
    exact handleGet_totalVotes_zero _ (by simp [handleReset, hp]) proj hproj
  · intro hdup
    by_cases h1 : p.status = .draft
    · simp [handleVote, hp, h1] at hdup
    by_cases h2 : p.status = .closed
    · simp [handleVote, hp, h1, h2] at hdup
    by_cases ha : answerExists s.answers aid
    · simp [handleVote, handleReset, hp, h1, h2, ha, fingerprintExists]
    · simp [handleVote, hp, h1, h2, ha] at hdup

theorem C5_witness : ((handleReset wS3 7).2).votes = [] :=
  (C5_reset_semantics wS3 wPollPub 7 9 "a1" "fp1" "v9" (by decide)).1

/-- C6 as stated is false: `handleDelete` on an actor with no poll
(never created, or already deleted) answers 404 `'Poll not found'`, not
success. -/
theorem C6_counterexample :
    (handleDelete initState).1 = .error .pollNotFound
    ∧ (handleDelete initState).1 ≠ .ok true := by
  constructor <;> decide

/-- C6 (amended): `delete()` removes all poll, answer, and vote state
and returns success whenever a poll exists; but it is not idempotent —
on an actor with no poll (including one whose poll was already deleted)
it fails with `NotFound` instead of succeeding. -/
theorem C6_delete_not_idempotent (s : DOState) :
    (∀ p, s.poll = some p → handleDelete s = (.ok true, initState))
    ∧ (s.poll = none → handleDelete s = (.error .pollNotFound, s)) := by
  constructor
  · intro p hp
    simp [handleDelete, hp]
  · intro hp
    simp [handleDelete, hp]

theorem C6_witness : handleDelete wS1 = (.ok true, initState) :=
  (C6_delete_not_idempotent wS1).1 wPollDraft (by decide)

/-! ### Create-poll validation (C7) -/

theorem dedup_length_eq_iff {l : List String} :
    l.dedup.length = l.length ↔ l.Nodup := by
  constructor
  · intro h
    have he := (List.dedup_sublist l).eq_of_length h
    rw [← he]
    exact List.nodup_dedup l
  · intro h
    rw [List.dedup_eq_self.2 h]

theorem createPollValid_iff (question : String) (answers : List String) :
    createPollValid question answers = true ↔ ClaimConstraints question answers := by
  simp only [createPollValid, ClaimConstraints, Bool.and_eq_true, decide_eq_true_eq,
    List.all_eq_true, beq_iff_eq, dedup_length_eq_iff]
  tauto

/-- C7: the CMS create route fails with `ValidationError` exactly when
the claim's structural constraints are violated (question length outside
1–500, an answer length outside 1–200, answer texts not pairwise
distinct, or answer count outside 2–10); when every constraint holds (on
a fresh actor, one generated UUID per answer) the poll and its answers
are created in draft status. -/
theorem C7_create_validation (s : DOState) (pollId question : String)
    (answers ansIds : List String) (now : Nat)
    (hlen : answers.length ≤ ansIds.length) :
    (handleCreatePoll s pollId question answers ansIds now = .error .validationError
      ↔ ¬ ClaimConstraints question answers)
    ∧ (ClaimConstraints question answers → s.poll = none →
        handleCreatePoll s pollId question answers ansIds now
          = .ok { poll := some
                    { id := pollId, question := question, status := .draft
                    , created_at := now, updated_at := now
                    , published_at := none, closed_at := none, reset_count := 0 }
                , answers := s.answers ++ mkAnswers answers ansIds
                , votes := s.votes }
          ∧ (mkAnswers answers ansIds).map (fun a => a.answer_text) = answers) := by
  constructor
  · constructor
    · intro h hc
      have hv := (createPollValid_iff question answers).2 hc
      simp only [handleCreatePoll, hv] at h
      rcases hcr : handleCreate s pollId question answers ansIds now with ⟨r, s'⟩
      rw [hcr] at h
      cases r <;> simp at h
    · intro hc
      have hv : createPollValid question answers = false := by
        rcases Bool.eq_false_or_eq_true (createPollValid question answers) with h | h
        · exact absurd ((createPollValid_iff _ _).1 h) hc
        · exact h
      simp [handleCreatePoll, hv]
  · intro hc hpn
    have hv := (createPollValid_iff question answers).2 hc
    refine ⟨?_, mkAnswers_texts hlen⟩
    simp [handleCreatePoll, hv, handleCreate, hpn]

theorem C7_witness :
    handleCreatePoll initState "p9" "Q?" ["Aye", "Nay"] ["a1", "a2"] 1
      = .ok { poll := some
                { id := "p9", question := "Q?", status := .draft
                , created_at := 1, updated_at := 1
                , published_at := none, closed_at := none, reset_count := 0 }
            , answers := initState.answers ++ mkAnswers ["Aye", "Nay"] ["a1", "a2"]
            , votes := initState.votes } :=
  ((C7_create_validation initState "p9" "Q?" ["Aye", "Nay"] ["a1", "a2"] 1
      (by decide)).2 ((createPollValid_iff "Q?" ["Aye", "Nay"]).1 (by decide)) rfl).1

/-! ### Poll-index ordering (C8) -/

/-- C8 as stated is false: `listIndex` orders by `created_at DESC`, so
two polls added at times 1 then 2 come back newest-first, the reverse of
insertion order. -/
theorem C8_counterexample :
    handleGetIndex (handleAddToIndex (handleAddToIndex initIndex "pollA" 1) "pollB" 2)
      = ["pollB", "pollA"]
    ∧ handleGetIndex (handleAddToIndex (handleAddToIndex initIndex "pollA" 1) "pollB" 2)
      ≠ ["pollA", "pollB"] := by
  constructor <;> decide

theorem insertDescByCreated_min (x : String × Nat) (l : List (String × Nat))
    (h : ∀ y ∈ l, x.2 < y.2) : insertDescByCreated x l = l ++ [x] := by
  induction l with
  | nil => rfl
  | cons y ys ih =>
    have hy := h y (List.mem_cons_self y ys)
    rw [insertDescByCreated, if_neg (by omega)]
    rw [ih (fun z hz => h z (List.mem_cons_of_mem y hz))]
    simp

theorem sortByCreatedDesc_of_ascending (l : List (String × Nat))
    (h : List.Pairwise (fun a b => a.2 < b.2) l) :
    sortByCreatedDesc l = l.reverse := by
  induction l with
  | nil => rfl
  | cons x xs ih =>
    have hx := (List.pairwise_cons.1 h).1
    show insertDescByCreated x (sortByCreatedDesc xs) = (x :: xs).reverse
    rw [ih (List.pairwise_cons.1 h).2]
    rw [insertDescByCreated_min x xs.reverse
      (fun y hy => hx y (List.mem_reverse.1 hy))]
    simp

theorem map_fst_filter_ne (l : List (String × Nat)) (pid : String) :
    (l.filter (fun r => !(r.1 == pid))).map Prod.fst
      = (l.map Prod.fst).filter (fun x => !(x == pid)) := by
  induction l with
  | nil => rfl
  | cons r rs ih =>
    by_cases h : r.1 == pid <;> simp [h, ih]

theorem idxRun_ascending (ops : List IdxOp) :
    ∀ (s : IndexState) (lb : Nat),
    List.Pairwise (fun a b => a.2 < b.2) s.poll_index →
    (∀ r ∈ s.poll_index, r.2 ≤ lb) →
    IdxTimesMono lb ops →
    (idxRun s ops).poll_index.map Prod.fst
        = presentIds (s.poll_index.map Prod.fst) ops
    ∧ List.Pairwise (fun a b => a.2 < b.2) (idxRun s ops).poll_index := by
  induction ops with
  | nil => intro s lb hp hb hm; exact ⟨rfl, hp⟩
  | cons op rest ih =>
    intro s lb hp hb hm
    cases op with
    | add pid t =>
      rcases hm with ⟨hlt, hm'⟩
      by_cases hmem : s.poll_index.any (fun r => r.1 == pid)
      · have hpid : pid ∈ s.poll_index.map Prod.fst := by
          rcases List.any_eq_true.1 hmem with ⟨r, hr, he⟩
          have he' : r.1 = pid := by simpa using he
          exact he' ▸ List.mem_map_of_mem Prod.fst hr
        have hstep : idxStep s (.add pid t) = s := by
          simp [idxStep, handleAddToIndex, hmem]
        have h := ih s t hp (fun r hr => Nat.le_of_lt (Nat.lt_of_le_of_lt (hb r hr) hlt)) hm'
        show ((idxRun (idxStep s (.add pid t)) rest).poll_index.map Prod.fst
            = presentIds (s.poll_index.map Prod.fst) (.add pid t :: rest))
          ∧ List.Pairwise (fun a b => a.2 < b.2)
              (idxRun (idxStep s (.add pid t)) rest).poll_index
        rw [hstep]
        refine ⟨?_, h.2⟩
        rw [h.1]
        simp [presentIds, hpid]
      · have hpid : pid ∉ s.poll_index.map Prod.fst := by
          intro hmm
          rcases List.mem_map.1 hmm with ⟨r, hr, rfl⟩
          exact hmem (List.any_eq_true.2 ⟨r, hr, by simp⟩)
        have hstep : idxStep s (.add pid t) = ⟨s.poll_index ++ [(pid, t)]⟩ := by
          simp [idxStep, handleAddToIndex, hmem]
        have hp2 : List.Pairwise (fun a b => a.2 < b.2)
            (s.poll_index ++ [(pid, t)]) := by
          rw [List.pairwise_append]
          refine ⟨hp, by simp, ?_⟩
          intro a ha b hbm
          simp at hbm
          subst hbm
          exact Nat.lt_of_le_of_lt (hb a ha) hlt
        have hb2 : ∀ r ∈ s.poll_index ++ [(pid, t)], r.2 ≤ t := by
          intro r hr
          rcases List.mem_append.1 hr with hr | hr
          · exact Nat.le_of_lt (Nat.lt_of_le_of_lt (hb r hr) hlt)
          · simp at hr
            subst hr
            exact Nat.le_refl t
        have h := ih ⟨s.poll_index ++ [(pid, t)]⟩ t hp2 hb2 hm'
        show ((idxRun (idxStep s (.add pid t)) rest).poll_index.map Prod.fst
            = presentIds (s.poll_index.map Prod.fst) (.add pid t :: rest))
          ∧ List.Pairwise (fun a b => a.2 < b.2)
              (idxRun (idxStep s (.add pid t)) rest).poll_index
        rw [hstep]
        refine ⟨?_, h.2⟩
        rw [h.1]
        simp [presentIds, hpid]
    | remove pid =>
      have hstep : idxStep s (.remove pid)
          = ⟨s.poll_index.filter (fun r => !(r.1 == pid))⟩ := rfl
      have hp2 : List.Pairwise (fun a b => a.2 < b.2)
          (s.poll_index.filter (fun r => !(r.1 == pid))) :=
        hp.sublist (List.filter_sublist _)
      have hb2 : ∀ r ∈ s.poll_index.filter (fun r => !(r.1 == pid)), r.2 ≤ lb :=
        fun r hr => hb r (List.mem_of_mem_filter hr)
      have h := ih ⟨s.poll_index.filter (fun r => !(r.1 == pid))⟩ lb hp2 hb2 hm
      show ((idxRun (idxStep s (.remove pid)) rest).poll_index.map Prod.fst
          = presentIds (s.poll_index.map Prod.fst) (.remove pid :: rest))
        ∧ List.Pairwise (fun a b => a.2 < b.2)
            (idxRun (idxStep s (.remove pid)) rest).poll_index
      rw [hstep]
      refine ⟨?_, h.2⟩
      rw [h.1]
      show presentIds ((s.poll_index.filter (fun r => !(r.1 == pid))).map Prod.fst) rest
        = _
      rw [map_fst_filter_ne]
      rfl

/-- C8 (amended): for every sequence of `addToIndex`/`removeFromIndex`
operations whose `Date.now()` stamps strictly increase, `listIndex`
returns the present poll identifiers ordered by `created_at`
descending, i.e. the REVERSE of first-insertion order (newest first),
not insertion order. -/
theorem C8_index_reverse_insertion (ops : List IdxOp)
    (hmono : IdxTimesMono 0 ops) :
    handleGetIndex (idxRun initIndex ops) = (presentIds [] ops).reverse := by
  have h := idxRun_ascending ops initIndex 0 (by simp [initIndex])
    (by simp [initIndex]) hmono
  rw [handleGetIndex, sortByCreatedDesc_of_ascending _ h.2, List.map_reverse, h.1]
  rfl

theorem C8_witness :
    handleGetIndex (idxRun initIndex
        [.add "pollA" 1, .add "pollB" 2, .remove "pollA"])
      = (presentIds [] [.add "pollA" 1, .add "pollB" 2, .remove "pollA"]).reverse :=
  C8_index_reverse_insertion
    [.add "pollA" 1, .add "pollB" 2, .remove "pollA"]
    ⟨by decide, by decide, trivial⟩

end NewsroomPolling
